import Mathlib

/-!
Verification of the orbital-mechanics core of `orbit_pyqtgraph`
(`orbit_pyqtgraph/orb_math.py` and the propagation/"cache"/sidereal-time parts
of `orbit_pyqtgraph/orbit.py`) against its natural-language specification.

The Python code's float arithmetic is idealised over ℝ; numpy's vectorised
element-wise array operations become Lean `List` maps/zips; Python's `%` on
floats and `math.floor` become `pythonMod` and `Int.floor`; Python `datetime`
calendar operations are modelled with exact integer arithmetic on the
proleptic Gregorian calendar.  TLE text parsing is modelled computably over
`String`/`ℚ` so that concrete parses can be evaluated by the kernel.
-/

noncomputable section

open Real

/-! ## Small vector/matrix algebra (numpy 3-vectors and 3×3 matrices) -/

/-- A 3-vector of reals, `(x, y, z)`. -/
def Vec3 : Type := ℝ × ℝ × ℝ

instance : Inhabited Vec3 := ⟨((0 : ℝ), (0 : ℝ), (0 : ℝ))⟩

/-- A 3×3 matrix as a triple of rows. -/
def Mat3 : Type := Vec3 × Vec3 × Vec3

/-- Dot product of 3-vectors. -/
def dot3 (a b : Vec3) : ℝ := a.1 * b.1 + a.2.1 * b.2.1 + a.2.2 * b.2.2

/-- Matrix-vector product (numpy `A @ v`). -/
def matVec (A : Mat3) (v : Vec3) : Vec3 :=
  (dot3 A.1 v, dot3 A.2.1 v, dot3 A.2.2 v)

/-- Matrix-matrix product (numpy `A @ B`), written out entrywise. -/
def matMul (A B : Mat3) : Mat3 :=
  ((A.1.1 * B.1.1 + A.1.2.1 * B.2.1.1 + A.1.2.2 * B.2.2.1,
    A.1.1 * B.1.2.1 + A.1.2.1 * B.2.1.2.1 + A.1.2.2 * B.2.2.2.1,
    A.1.1 * B.1.2.2 + A.1.2.1 * B.2.1.2.2 + A.1.2.2 * B.2.2.2.2),
   (A.2.1.1 * B.1.1 + A.2.1.2.1 * B.2.1.1 + A.2.1.2.2 * B.2.2.1,
    A.2.1.1 * B.1.2.1 + A.2.1.2.1 * B.2.1.2.1 + A.2.1.2.2 * B.2.2.2.1,
    A.2.1.1 * B.1.2.2 + A.2.1.2.1 * B.2.1.2.2 + A.2.1.2.2 * B.2.2.2.2),
   (A.2.2.1 * B.1.1 + A.2.2.2.1 * B.2.1.1 + A.2.2.2.2 * B.2.2.1,
    A.2.2.1 * B.1.2.1 + A.2.2.2.1 * B.2.1.2.1 + A.2.2.2.2 * B.2.2.2.1,
    A.2.2.1 * B.1.2.2 + A.2.2.2.1 * B.2.1.2.2 + A.2.2.2.2 * B.2.2.2.2))

/-- Squared Euclidean norm of a 3-vector. -/
def vnormSq (v : Vec3) : ℝ := v.1 ^ 2 + v.2.1 ^ 2 + v.2.2 ^ 2

/-- Euclidean norm of a 3-vector (`np.linalg.norm`). -/
def vnorm (v : Vec3) : ℝ := Real.sqrt (vnormSq v)

/-! ## Python/numpy primitives -/

/-- Python float `%`: the result has the sign of the divisor, `x - y*⌊x/y⌋`. -/
def pythonMod (x y : ℝ) : ℝ := x - y * (⌊x / y⌋ : ℤ)

/-- The normalisation `(M + π) % (2π) - π` used throughout `orb_math.py`
to reduce angles into `[-π, π)`. -/
def normAngle (M : ℝ) : ℝ := pythonMod (M + π) (2 * π) - π

/-- numpy `arctan2 y x`. -/
def atan2 (y x : ℝ) : ℝ :=
  if 0 < x then arctan (y / x)
  else if x < 0 then (if 0 ≤ y then arctan (y / x) + π else arctan (y / x) - π)
  else if 0 < y then π / 2
  else if y < 0 then -(π / 2)
  else 0

/-- Model of `np.deg2rad`. -/
def deg2rad (d : ℝ) : ℝ := d * (π / 180)

/-- Model of `np.rad2deg`. -/
def rad2deg (r : ℝ) : ℝ := r * (180 / π)

/-- Earth's gravitational parameter, km³/s² (`MU_EARTH` in orb_math.py). -/
def MU_EARTH : ℝ := 398600.4418

/-- Earth's rotation rate, rad/s (`OMEGA_EARTH` in orb_math.py). -/
def OMEGA_EARTH : ℝ := 7.2921150e-5

/-! ## Kepler solver (`kepler_E` in orb_math.py)

The source operates on a numpy array of mean anomalies `M` sharing one
eccentricity `e`; the Newton loop updates every element each iteration and
breaks only when *all* updates are below `tol`.  We model the array case over
`List ℝ` and the 0-d (scalar) case separately. -/

/-- One Newton-Raphson correction `dE = -(E - e·sin E - M)/(1 - e·cos E)`. -/
def keplerDelta (e M E : ℝ) : ℝ := -(E - e * Real.sin E - M) / (1 - e * Real.cos E)

/-- Scalar Newton loop body with fuel: update `E += dE`, break when `|dE| < tol`. -/
def keplerLoopS (e tol M : ℝ) : ℕ → ℝ → ℝ
  | 0, E => E
  | n + 1, E =>
    let dE := keplerDelta e M E
    let E2 := E + dE
    if |dE| < tol then E2 else keplerLoopS e tol M n E2

/-- The function `kepler_E` on a scalar (0-d array) input: normalise `M` to `[-π, π)`,
start from `E₀ = M` (or `π` when `|e| > 0.8`), then Newton-iterate. -/
def kepler_E_scalar (M e tol : ℝ) (maxiter : ℕ) : ℝ :=
  let Mn := normAngle M
  keplerLoopS e tol Mn maxiter (if |e| > 0.8 then π else Mn)

/-- Element-wise Newton corrections for a batch. -/
def keplerDeltas (e : ℝ) (Ms Es : List ℝ) : List ℝ :=
  List.zipWith (fun M E => keplerDelta e M E) Ms Es

/-- One whole-array Newton update `E += dE`. -/
def keplerUpdate (e : ℝ) (Ms Es : List ℝ) : List ℝ :=
  List.zipWith (fun M E => E + keplerDelta e M E) Ms Es

/-- Vectorised Newton loop body with fuel: update all elements, break when
every element's `|dE| < tol` (numpy `np.all(np.abs(dE) < tol)`). -/
def keplerLoopV (e tol : ℝ) (Ms : List ℝ) : ℕ → List ℝ → List ℝ
  | 0, Es => Es
  | n + 1, Es =>
    let dEs := keplerDeltas e Ms Es
    let Es2 := List.zipWith (fun E dE => E + dE) Es dEs
    if ∀ d ∈ dEs, |d| < tol then Es2 else keplerLoopV e tol Ms n Es2

/-- The function `kepler_E` on an array of mean anomalies (the batch form used by
`propagate_orbit`): normalise each `M`, start every element from `M`
(or all from `π` when `|e| > 0.8`), then Newton-iterate jointly. -/
def kepler_E (Ms : List ℝ) (e tol : ℝ) (maxiter : ℕ) : List ℝ :=
  let Mn := Ms.map normAngle
  keplerLoopV e tol Mn maxiter (if |e| > 0.8 then Mn.map (fun _ => π) else Mn)

/-! ## Element sets and propagation (`oe_to_rv`, `propagate_orbit`) -/

/-- The classical element set `[a_km, e, i_deg, raan_deg, argp_deg, M0_deg]`
unpacked by `propagate_orbit`. -/
structure ElementSet where
  a : ℝ
  e : ℝ
  i_deg : ℝ
  raan_deg : ℝ
  argp_deg : ℝ
  M0_deg : ℝ

/-- The `Rz` rotation matrix as written in oe_to_rv/propagate_orbit. -/
def Rz (t : ℝ) : Mat3 :=
  ((Real.cos t, -Real.sin t, 0), (Real.sin t, Real.cos t, 0), (0, 0, 1))

/-- The `Rx` rotation matrix as written in oe_to_rv/propagate_orbit. -/
def Rx (t : ℝ) : Mat3 :=
  ((1, 0, 0), (0, Real.cos t, -Real.sin t), (0, Real.sin t, Real.cos t))

/-- Model of `oe_to_rv`: classical elements at one mean anomaly to ECI position and
velocity, exactly following orb_math.py lines 49-84. -/
def oe_to_rv (a e i_deg raan_deg argp_deg M_deg : ℝ) : Vec3 × Vec3 :=
  let i := deg2rad i_deg
  let raan := deg2rad raan_deg
  let argp := deg2rad argp_deg
  let M := deg2rad M_deg
  let E := kepler_E_scalar M e 1e-10 100
  let cosf := (Real.cos E - e) / (1 - e * Real.cos E)
  let sinf := (Real.sqrt (1 - e ^ 2) * Real.sin E) / (1 - e * Real.cos E)
  let f := atan2 sinf cosf
  let r := a * (1 - e * Real.cos E)
  let rx_pf := r * Real.cos f
  let ry_pf := r * Real.sin f
  let h := Real.sqrt (MU_EARTH * a * (1 - e ^ 2))
  let vx_pf := -MU_EARTH / h * Real.sin f
  let vy_pf := MU_EARTH / h * (e + Real.cos f)
  let Q := matMul (matMul (Rz raan) (Rx i)) (Rz argp)
  (matVec Q (rx_pf, ry_pf, 0), matVec Q (vx_pf, vy_pf, 0))

/-- Model of `propagate_orbit`: element set plus seconds-since-epoch offsets to ECI
positions (orb_math.py lines 87-125; the numpy row-wise pipeline becomes a
per-element map, and the final `(Q_pX @ r_pf).T` is `matVec Q` per sample).
`M0_epoch_time` is the third Python parameter (default `0.0` at call sites). -/
def propagate_orbit (elems : ElementSet) (times_s : List ℝ) (M0_epoch_time : ℝ) :
    List Vec3 :=
  let a := elems.a
  let e := elems.e
  let n := Real.sqrt (MU_EARTH / a ^ 3)
  let M0 := deg2rad elems.M0_deg
  let M := times_s.map (fun t => M0 + n * (t - M0_epoch_time))
  let Mn := M.map normAngle
  let Es := kepler_E Mn e 1e-10 100
  let i := deg2rad elems.i_deg
  let raan := deg2rad elems.raan_deg
  let argp := deg2rad elems.argp_deg
  let Q := matMul (matMul (Rz raan) (Rx i)) (Rz argp)
  Es.map (fun E =>
    let cosf := (Real.cos E - e) / (1 - e * Real.cos E)
    let sinf := (Real.sqrt (1 - e ^ 2) * Real.sin E) / (1 - e * Real.cos E)
    let f := atan2 sinf cosf
    let r := a * (1 - e * Real.cos E)
    matVec Q (r * Real.cos f, r * Real.sin f, 0))

/-- The element-set invariant stated by the specification:
`a_km > 0` and `0 ≤ e < 1`. -/
def validElementSet (es : ElementSet) : Prop :=
  0 < es.a ∧ 0 ≤ es.e ∧ es.e < 1

/-! ## Frame transforms (`eci_to_ecef`, `ecef_to_latlon`) -/

/-- The per-sample `Rz` matrix applied inside `eci_to_ecef`
(rows `[[cos θ, sin θ, 0], [-sin θ, cos θ, 0], [0, 0, 1]]`). -/
def rotEcef (t : ℝ) (v : Vec3) : Vec3 :=
  matVec ((Real.cos t, Real.sin t, 0), (-Real.sin t, Real.cos t, 0), (0, 0, 1)) v

/-- Model of `eci_to_ecef` (orb_math.py lines 128-156) on a batch of positions:
`θᵢ = gst0 + ω_⊕·tᵢ`; a single time value is broadcast over all rows. -/
def eci_to_ecef (r_eci : List Vec3) (t_sec : List ℝ) (gst0 : ℝ) : List Vec3 :=
  let thetaAll := t_sec.map (fun t => gst0 + OMEGA_EARTH * t)
  let thetas := match thetaAll with
    | [t] => List.replicate r_eci.length t
    | l => l
  List.zipWith (fun v t => rotEcef t v) r_eci thetas

/-- Model of `ecef_to_latlon` (orb_math.py lines 159-176): spherical conversion to
`(lat_deg, lon_deg, alt_km)` with `alt = |r| - 6371`. -/
def ecef_to_latlon (r_ecef : List Vec3) : List (ℝ × ℝ × ℝ) :=
  r_ecef.map (fun v =>
    let lon := atan2 v.2.1 v.1
    let rxy := Real.sqrt (v.1 ^ 2 + v.2.1 ^ 2)
    let lat := atan2 v.2.2 rxy
    let alt := vnorm v - 6371.0
    (rad2deg lat, rad2deg lon, alt))

end

/-! ## Proleptic Gregorian calendar (model of `datetime.utcfromtimestamp`) -/

/-- Gregorian calendar date `(year, month, day)` for a count of days since
1970-01-01; models the date part of Python `datetime.utcfromtimestamp`
(standard civil-from-days algorithm on the proleptic Gregorian calendar). -/
def civilFromDays (d : Int) : Int × Int × Int :=
  let n := d + 719468
  let era := Int.fdiv n 146097
  let doe := n - era * 146097
  let cc := Int.fdiv (4 * doe + 3) 146097
  let doc := doe - Int.fdiv (146097 * cc) 4
  let yocc := Int.fdiv (4 * doc + 3) 1461
  let doy := doc - Int.fdiv (1461 * yocc) 4
  let mp := Int.fdiv (5 * doy + 2) 153
  let dd := doy - Int.fdiv (153 * mp + 2) 5 + 1
  let mm := mp + (if mp < 10 then 3 else -9)
  let yy := era * 400 + cc * 100 + yocc + (if mm ≤ 2 then 1 else 0)
  (yy, mm, dd)

/-- Integer core of the Meeus Julian-day computation inside `gmst_rad`,
shifted by `+1524.5` so it is an integer: `jdShiftedZ Y M D = JD0 + 1524.5`. -/
def jdShiftedZ (Y M D : Int) : Int :=
  let Y2 := if M ≤ 2 then Y - 1 else Y
  let M2 := if M ≤ 2 then M + 12 else M
  let A := Int.fdiv Y2 100
  let B := 2 - A + Int.fdiv A 4
  Int.fdiv (1461 * (Y2 + 4716)) 4 + Int.fdiv (306001 * (M2 + 1)) 10000 + D + B

noncomputable section

open Real

/-! ## Sidereal time (`gmst_rad` in orbit.py, lines 561-584) -/

/-- Model of `datetime.utcfromtimestamp`: whole days since the Unix epoch. -/
def utcDays (t : ℝ) : ℤ := ⌊t / 86400⌋

/-- Seconds elapsed within the UTC day, in `[0, 86400)`. -/
def utcSod (t : ℝ) : ℝ := t - 86400 * (utcDays t : ℝ)

/-- The hour component `dt.hour`. -/
def utcHH (t : ℝ) : ℤ := ⌊utcSod t / 3600⌋

/-- The minute component `dt.minute`. -/
def utcMM (t : ℝ) : ℤ := ⌊(utcSod t - 3600 * (utcHH t : ℝ)) / 60⌋

/-- The (fractional) second component `dt.second + dt.microsecond·1e-6`,
idealised as an exact real. -/
def utcSS (t : ℝ) : ℝ := utcSod t - 3600 * (utcHH t : ℝ) - 60 * (utcMM t : ℝ)

/-- The Julian Date computed by `gmst_rad` (orbit.py lines 563-574): calendar
date from `utcfromtimestamp`, the month ≤ 2 adjustment, the Gregorian `B`
correction, the Meeus formula with `math.floor`, plus the fractional day. -/
def jdOfTimestamp (t : ℝ) : ℝ :=
  let c := civilFromDays (utcDays t)
  let Y : ℤ := if c.2.1 ≤ 2 then c.1 - 1 else c.1
  let M : ℤ := if c.2.1 ≤ 2 then c.2.1 + 12 else c.2.1
  let A : ℤ := ⌊(Y : ℝ) / 100⌋
  let B : ℤ := 2 - A + ⌊(A : ℝ) / 4⌋
  let JD0 : ℝ := ((⌊(365.25 : ℝ) * ((Y : ℝ) + 4716)⌋ : ℤ) : ℝ) +
    ((⌊(30.6001 : ℝ) * ((M : ℝ) + 1)⌋ : ℤ) : ℝ) + (c.2.2 : ℝ) + (B : ℝ) - 1524.5
  JD0 + ((utcHH t : ℝ) + ((utcMM t : ℝ) + utcSS t / 60) / 60) / 24

/-- The IAU-1982 GMST polynomial in Julian centuries `T` (seconds of time). -/
def gmstPoly (T : ℝ) : ℝ :=
  67310.54841 + (876600.0 * 3600 + 8640184.812866) * T
    + 0.093104 * T ^ 2 - 6.2e-6 * T ^ 3

/-- The GMST value in seconds of time computed by `gmst_rad` before the final
`% 360` wrap: `T = (JD - 2451545)/36525` centuries since J2000.0. -/
def gmst_sec (t : ℝ) : ℝ := gmstPoly ((jdOfTimestamp t - 2451545.0) / 36525.0)

/-- Model of `gmst_rad` (orbit.py): GMST in radians in `[0, 2π)`,
`radians((GMST_sec/240) % 360)`. -/
def gmst_rad (unix_ts : ℝ) : ℝ :=
  pythonMod (gmst_sec unix_ts / 240) 360 * (π / 180)

end

/-! ## The OrbitPlot "Ephemeris Cache" (`OrbitPlot._prepare_propagation`) -/

noncomputable section

open Real

/-- Model of `np.linspace a b n`: `n` evenly spaced samples from `a` to `b` inclusive. -/
def linspace (a b : ℝ) : ℕ → List ℝ
  | 0 => []
  | 1 => [a]
  | n + 2 => (List.range (n + 2)).map (fun i => a + (b - a) * i / (n + 1))

/-- The mutable state of an `OrbitPlot` that `_prepare_propagation` touches:
the element set (with its epoch), the three write-only `_cached_*` fields,
and an instrumentation counter `propagateCalls` that counts how many times
`propagate_orbit` has been invoked (the source calls it exactly once per
`_prepare_propagation` call, unconditionally). -/
structure OrbitPlotState where
  elems : ElementSet
  epoch : ℝ
  cachedTimes : Option (List ℝ)
  cachedREci : Option (List Vec3)
  cachedREcef : Option (List Vec3)
  propagateCalls : ℕ

/-- A propagation request: the arguments of `_prepare_propagation`
(`animation`, `revolves`; `sample_points_per_orbit` is 2000 at every call
site and `orbit_time_scale` is unused). -/
structure PrepRequest where
  animation : Bool
  revolves : Option ℤ

/-- The orbital period `T = 2π·sqrt(a³/398600.4418)` computed by
`_prepare_propagation`. -/
def orbitPeriod (a : ℝ) : ℝ := 2 * π * Real.sqrt (a ^ 3 / 398600.4418)

/-- The time array built by `_prepare_propagation` (orbit.py lines 382-390):
static mode (`animation=False` with `revolves` given) uses
`N = max 300 (2000·revolves)`; otherwise `N = 2000·(revolves or 2)`;
both sample `linspace 0 (T·revolves') N`. -/
def prepTimes (a : ℝ) (req : PrepRequest) : List ℝ :=
  let T := orbitPeriod a
  match req.animation, req.revolves with
  | false, some rev =>
      linspace 0 (T * (rev : ℝ)) (max 300 (2000 * rev)).toNat
  | _, _ =>
      let rev : ℝ := match req.revolves with
        | some r => (r : ℝ)
        | none => 2.0
      let n : ℤ := match req.revolves with
        | some r => 2000 * r
        | none => 4000
      linspace 0 (orbitPeriod a * rev) n.toNat

/-- Model of `OrbitPlot._prepare_propagation` (orbit.py lines 370-396): builds the
time array, *unconditionally* propagates (`propagate_orbit` then
`eci_to_ecef`), overwrites the three `_cached_*` fields, increments the
propagation counter, and returns `(times, r_eci, r_ecef, T)`.  The incoming
cached fields are never read. -/
def prepare_propagation (st : OrbitPlotState) (req : PrepRequest) :
    OrbitPlotState × (List ℝ × List Vec3 × List Vec3 × ℝ) :=
  let times := prepTimes st.elems.a req
  let r_eci := propagate_orbit st.elems times 0
  let r_ecef := eci_to_ecef r_eci times 0
  (⟨st.elems, st.epoch, some times, some r_eci, some r_ecef,
      st.propagateCalls + 1⟩,
   (times, r_eci, r_ecef, orbitPeriod st.elems.a))

end

/-! ## TLE parsing (`tle_to_kepler6` in orb_math.py, lines 179-216)

Python's string slicing truncates silently; `int`/`float` raise `ValueError`
on non-numeric text.  The text-level part is modelled computably over
`String`/`ℚ` (`pyInt`/`pyFloat` model Python `int()`/`float()` on the
sign/digits/point/exponent grammar; the `inf`/`nan`/underscore forms never
produced by TLE fields are not modelled).  A failed field parse is the
`ParseError` of the specification, modelled as `Except.error ()`. -/

/-- Python slice `s[a:b]` for `0 ≤ a ≤ b` (out-of-range indices clamp). -/
def strSlice (s : String) (a b : ℕ) : String :=
  String.mk ((s.toList.drop a).take (b - a))

/-- Python `str.strip()`. -/
def pyStrip (s : String) : String :=
  String.mk (((s.toList.dropWhile Char.isWhitespace).reverse.dropWhile
    Char.isWhitespace).reverse)

/-- Value of a digit string (only meaningful when all characters are digits). -/
def digitsToNat (l : List Char) : ℕ :=
  l.foldl (fun acc c => 10 * acc + (c.toNat - 48)) 0

/-- Parse a non-empty all-digit string. -/
def parseUDigits (l : List Char) : Option ℕ :=
  if l.isEmpty then none
  else if l.all Char.isDigit then some (digitsToNat l) else none

/-- Strip one leading sign, returning (negative?, rest). -/
def splitSign : List Char → Bool × List Char
  | '-' :: r => (true, r)
  | '+' :: r => (false, r)
  | l => (false, l)

/-- Python `int(s)`: optional sign then digits, whitespace-stripped. -/
def pyInt (s : String) : Option ℤ :=
  let p := splitSign (pyStrip s).toList
  (parseUDigits p.2).map (fun n => if p.1 then -(n : ℤ) else (n : ℤ))

/-- Python `float(s)` on the finite decimal grammar
`[+-]? (digits [. digits?] | [digits] . digits) ([eE] [+-]? digits)?`;
the value is the exact rational `±mantissa·10^exponent`. -/
def pyFloat (s : String) : Option ℚ :=
  let p := splitSign (pyStrip s).toList
  let mant := p.2.takeWhile (fun c => !(c == 'e' || c == 'E'))
  let rest := p.2.dropWhile (fun c => !(c == 'e' || c == 'E'))
  let mval : Option (ℕ × ℕ) :=
    let ip := mant.takeWhile (fun c => !(c == '.'))
    let dotfrac := mant.dropWhile (fun c => !(c == '.'))
    match dotfrac with
    | [] => (parseUDigits ip).map (fun n => (n, 0))
    | _ :: frac =>
      if ip.isEmpty && frac.isEmpty then none
      else if ip.all Char.isDigit && frac.all Char.isDigit then
        some (digitsToNat ip * 10 ^ frac.length + digitsToNat frac, frac.length)
      else none
  let expval : Option ℤ := match rest with
    | [] => some 0
    | _ :: ex =>
      let q := splitSign ex
      (parseUDigits q.2).map (fun n => if q.1 then -(n : ℤ) else (n : ℤ))
  match mval, expval with
  | some m, some ex =>
      let numAbs : ℕ := m.1 * 10 ^ ex.toNat
      let den : ℕ := 10 ^ m.2 * 10 ^ (-ex).toNat
      some (mkRat (if p.1 then -(numAbs : ℤ) else (numAbs : ℤ)) den)
  | _, _ => none

/-- Epoch field `line1[18:32]`, stripped. -/
def tleEpochStr (line1 : String) : String := pyStrip (strSlice line1 18 32)

/-- Field `yy = int(epoch_str[:2])`. -/
def tleYY (line1 : String) : Option ℤ := pyInt (strSlice (tleEpochStr line1) 0 2)

/-- Field `day_of_year = float(epoch_str[2:])`. -/
def tleDay (line1 : String) : Option ℚ :=
  pyFloat (strSlice (tleEpochStr line1) 2 (tleEpochStr line1).length)

/-- Inclination field `float(line2[8:16])`. -/
def tleInc (line2 : String) : Option ℚ := pyFloat (strSlice line2 8 16)

/-- RAAN field `float(line2[17:25])`. -/
def tleRaan (line2 : String) : Option ℚ := pyFloat (strSlice line2 17 25)

/-- Eccentricity field `float("0." + line2[26:33].strip())`. -/
def tleEcc (line2 : String) : Option ℚ :=
  pyFloat ("0." ++ pyStrip (strSlice line2 26 33))

/-- Argument-of-perigee field `float(line2[34:42])`. -/
def tleArgp (line2 : String) : Option ℚ := pyFloat (strSlice line2 34 42)

/-- Mean-anomaly field `float(line2[43:51])`. -/
def tleM0 (line2 : String) : Option ℚ := pyFloat (strSlice line2 43 51)

/-- Mean-motion field `float(line2[52:63])` (rev/day). -/
def tleMeanMotion (line2 : String) : Option ℚ := pyFloat (strSlice line2 52 63)

/-- The eight numeric fields `tle_to_kepler6` extracts before any arithmetic. -/
structure TleFields where
  yy : ℤ
  day_of_year : ℚ
  i_deg : ℚ
  raan_deg : ℚ
  e : ℚ
  argp_deg : ℚ
  M0_deg : ℚ
  n_rev_per_day : ℚ
deriving DecidableEq

/-- Text-level part of `tle_to_kepler6`: every field must parse, otherwise
the call raises (`ValueError` in Python, the spec's `ParseError`). -/
def tle_fields (line1 line2 : String) : Except Unit TleFields :=
  match tleYY line1, tleDay line1, tleInc line2, tleRaan line2, tleEcc line2,
      tleArgp line2, tleM0 line2, tleMeanMotion line2 with
  | some yy, some day, some i, some ra, some ec, some ap, some m0, some nr =>
      Except.ok ⟨yy, day, i, ra, ec, ap, m0, nr⟩
  | _, _, _, _, _, _, _, _ => Except.error ()

/-- NORAD two-digit-year resolution: `2000+yy` if `yy < 57` else `1900+yy`. -/
def yearFromYY (yy : ℤ) : ℤ := if yy < 57 then 2000 + yy else 1900 + yy

/-- Days from 1970-01-01 to Jan 1 of `year` (proleptic Gregorian), modelling
`datetime.datetime(year,1,1,tzinfo=utc)`. -/
def daysSinceUnixOfJan1 (year : ℤ) : ℤ :=
  365 * (year - 1) + Int.fdiv (year - 1) 4 - Int.fdiv (year - 1) 100 +
    Int.fdiv (year - 1) 400 - 719162

/-- Epoch timestamp `(jan1 + (day_of_year - 1) days).timestamp()`. -/
def epochTimeOfFields (yy : ℤ) (day : ℚ) : ℚ :=
  86400 * (daysSinceUnixOfJan1 (yearFromYY yy) : ℚ) + (day - 1) * 86400

noncomputable section

open Real

/-- Model of `tle_to_kepler6`: parse both lines and return the element set plus epoch,
`a_km = μ^(1/3) / n^(2/3)` with `n = 2π·n_rev/86400` rad/s.  No validation
of ranges is performed anywhere (mirroring the source). -/
def tle_to_kepler6 (line1 line2 : String) : Except Unit (ElementSet × ℝ) :=
  (tle_fields line1 line2).map (fun F =>
    let n_rad_s : ℝ := 2 * π * (F.n_rev_per_day : ℝ) / 86400
    let a_km : ℝ := (MU_EARTH : ℝ) ^ ((1 : ℝ) / 3) / n_rad_s ^ ((2 : ℝ) / 3)
    (⟨a_km, (F.e : ℝ), (F.i_deg : ℝ), (F.raan_deg : ℝ), (F.argp_deg : ℝ),
      (F.M0_deg : ℝ)⟩,
     ((epochTimeOfFields F.yy F.day_of_year : ℚ) : ℝ)))

end

/-! ## Helper lemmas -/

noncomputable section

open Real

theorem matVec_matMul (A B : Mat3) (v : Vec3) :
    matVec (matMul A B) v = matVec A (matVec B v) := by
  obtain ⟨⟨a11, a12, a13⟩, ⟨a21, a22, a23⟩, ⟨a31, a32, a33⟩⟩ := A
  obtain ⟨⟨b11, b12, b13⟩, ⟨b21, b22, b23⟩, ⟨b31, b32, b33⟩⟩ := B
  obtain ⟨x, y, z⟩ := v
  show ((_ : ℝ), (_ : ℝ), (_ : ℝ)) = ((_ : ℝ), (_ : ℝ), (_ : ℝ))
  simp only [matVec, matMul, dot3, Prod.mk.injEq]
  constructor
  · ring
  constructor
  · ring
  · ring

theorem vnormSq_rotZ (t : ℝ) (v : Vec3) : vnormSq (matVec (Rz t) v) = vnormSq v := by
  obtain ⟨x, y, z⟩ := v
  simp only [vnormSq, matVec, dot3, Rz]
  linear_combination (x ^ 2 + y ^ 2) * sin_sq_add_cos_sq t

theorem vnormSq_rotX (t : ℝ) (v : Vec3) : vnormSq (matVec (Rx t) v) = vnormSq v := by
  obtain ⟨x, y, z⟩ := v
  simp only [vnormSq, matVec, dot3, Rx]
  linear_combination (y ^ 2 + z ^ 2) * sin_sq_add_cos_sq t

theorem vnormSq_rotEcef (t : ℝ) (v : Vec3) : vnormSq (rotEcef t v) = vnormSq v := by
  obtain ⟨x, y, z⟩ := v
  simp only [vnormSq, rotEcef, matVec, dot3]
  linear_combination (x ^ 2 + y ^ 2) * sin_sq_add_cos_sq t

/-- The composed perifocal→ECI rotation preserves squared norms. -/
theorem vnormSq_matVec_Q (r i g : ℝ) (v : Vec3) :
    vnormSq (matVec (matMul (matMul (Rz r) (Rx i)) (Rz g)) v) = vnormSq v := by
  rw [matVec_matMul, matVec_matMul, vnormSq_rotZ, vnormSq_rotX, vnormSq_rotZ]

theorem pythonMod_nonneg (x y : ℝ) (hy : 0 < y) : 0 ≤ pythonMod x y := by
  unfold pythonMod
  have h1 : (⌊x / y⌋ : ℝ) ≤ x / y := Int.floor_le (x / y)
  have h2 : y * (⌊x / y⌋ : ℝ) ≤ y * (x / y) := by
    exact mul_le_mul_of_nonneg_left h1 (le_of_lt hy)
  rw [mul_div_cancel₀ x (ne_of_gt hy)] at h2
  linarith

theorem pythonMod_lt (x y : ℝ) (hy : 0 < y) : pythonMod x y < y := by
  unfold pythonMod
  have h1 : x / y < (⌊x / y⌋ : ℝ) + 1 := Int.lt_floor_add_one (x / y)
  have h2 : y * (x / y) < y * ((⌊x / y⌋ : ℝ) + 1) := by
    exact mul_lt_mul_of_pos_left h1 hy
  rw [mul_div_cancel₀ x (ne_of_gt hy)] at h2
  nlinarith

theorem pythonMod_eq_self (x y : ℝ) (hy : 0 < y) (h0 : 0 ≤ x) (h1 : x < y) :
    pythonMod x y = x := by
  unfold pythonMod
  have hfl : ⌊x / y⌋ = 0 := by
    rw [Int.floor_eq_zero_iff]
    constructor
    · exact div_nonneg h0 (le_of_lt hy)
    · rw [div_lt_one hy]; exact h1
  rw [hfl]
  simp

theorem normAngle_idem (M : ℝ) : normAngle (normAngle M) = normAngle M := by
  unfold normAngle
  have h2pi : (0 : ℝ) < 2 * π := by positivity
  have hself : pythonMod (pythonMod (M + π) (2 * π) - π + π) (2 * π)
      = pythonMod (M + π) (2 * π) := by
    rw [sub_add_cancel]
    exact pythonMod_eq_self _ _ h2pi (pythonMod_nonneg _ _ h2pi) (pythonMod_lt _ _ h2pi)
  rw [hself]

theorem keplerLoopV_singleton (e tol M : ℝ) :
    ∀ (fuel : ℕ) (E : ℝ),
      keplerLoopV e tol [M] fuel [E] = [keplerLoopS e tol M fuel E] := by
  intro fuel
  induction fuel with
  | zero => intro E; rfl
  | succ n ih =>
    intro E
    show (if ∀ d ∈ keplerDeltas e [M] [E], |d| < tol then
        List.zipWith (fun E dE => E + dE) [E] (keplerDeltas e [M] [E])
      else keplerLoopV e tol [M] n
        (List.zipWith (fun E dE => E + dE) [E] (keplerDeltas e [M] [E]))) = _
    have hd : keplerDeltas e [M] [E] = [keplerDelta e M E] := rfl
    rw [hd]
    by_cases h : |keplerDelta e M E| < tol
    · rw [if_pos (by simpa using h)]
      show _ = [if |keplerDelta e M E| < tol then E + keplerDelta e M E
        else keplerLoopS e tol M n (E + keplerDelta e M E)]
      rw [if_pos h]
      rfl
    · rw [if_neg (by simpa using h)]
      show keplerLoopV e tol [M] n [E + keplerDelta e M E] = _
      rw [ih]
      show _ = [if |keplerDelta e M E| < tol then E + keplerDelta e M E
        else keplerLoopS e tol M n (E + keplerDelta e M E)]
      rw [if_neg h]

theorem kepler_E_singleton (M e tol : ℝ) (maxiter : ℕ) :
    kepler_E [M] e tol maxiter = [kepler_E_scalar M e tol maxiter] := by
  show keplerLoopV e tol (List.map normAngle [M]) maxiter
      (if |e| > 0.8 then (List.map normAngle [M]).map (fun _ => π)
        else List.map normAngle [M])
    = [keplerLoopS e tol (normAngle M) maxiter (if |e| > 0.8 then π else normAngle M)]
  have hM : List.map normAngle [M] = [normAngle M] := rfl
  rw [hM]
  by_cases h : |e| > 0.8
  · rw [if_pos h, if_pos h]
    exact keplerLoopV_singleton e tol (normAngle M) maxiter π
  · rw [if_neg h, if_neg h]
    exact keplerLoopV_singleton e tol (normAngle M) maxiter (normAngle M)

theorem kepler_E_scalar_normAngle (M e tol : ℝ) (maxiter : ℕ) :
    kepler_E_scalar (normAngle M) e tol maxiter = kepler_E_scalar M e tol maxiter := by
  unfold kepler_E_scalar
  rw [normAngle_idem]

theorem keplerLoopV_length (e tol : ℝ) (Ms : List ℝ) :
    ∀ (fuel : ℕ) (Es : List ℝ), Es.length = Ms.length →
      (keplerLoopV e tol Ms fuel Es).length = Ms.length := by
  intro fuel
  induction fuel with
  | zero => intro Es h; exact h
  | succ n ih =>
    intro Es h
    have hlen : (List.zipWith (fun E dE => E + dE) Es (keplerDeltas e Ms Es)).length
        = Ms.length := by
      simp [keplerDeltas, List.length_zipWith, h]
    show (if ∀ d ∈ keplerDeltas e Ms Es, |d| < tol then
        List.zipWith (fun E dE => E + dE) Es (keplerDeltas e Ms Es)
      else keplerLoopV e tol Ms n
        (List.zipWith (fun E dE => E + dE) Es (keplerDeltas e Ms Es))).length = _
    by_cases hc : ∀ d ∈ keplerDeltas e Ms Es, |d| < tol
    · rw [if_pos hc]; exact hlen
    · rw [if_neg hc]; exact ih _ hlen

theorem kepler_E_length (Ms : List ℝ) (e tol : ℝ) (maxiter : ℕ) :
    (kepler_E Ms e tol maxiter).length = Ms.length := by
  show (keplerLoopV e tol (List.map normAngle Ms) maxiter
      (if |e| > 0.8 then (List.map normAngle Ms).map (fun _ => π)
        else List.map normAngle Ms)).length = Ms.length
  by_cases h : |e| > 0.8
  · rw [if_pos h]
    rw [keplerLoopV_length e tol (List.map normAngle Ms) maxiter _ (by simp)]
    simp
  · rw [if_neg h]
    rw [keplerLoopV_length e tol (List.map normAngle Ms) maxiter _ rfl]
    simp

/-- Helper: `propagate_orbit` always produces one position sample per time offset. -/
theorem propagate_orbit_length (elems : ElementSet) (times_s : List ℝ) (m0t : ℝ) :
    (propagate_orbit elems times_s m0t).length = times_s.length := by
  unfold propagate_orbit
  simp only [List.length_map]
  rw [kepler_E_length]
  simp

end

/-! ## Claim C7: the Kepler solver is total and silently bounded -/

noncomputable section

open Real

theorem zipWith_add_deltas (e : ℝ) :
    ∀ (Ms Es : List ℝ),
      List.zipWith (fun E dE => E + dE) Es (keplerDeltas e Ms Es)
        = keplerUpdate e Ms Es := by
  intro Ms
  induction Ms with
  | nil => intro Es; cases Es <;> rfl
  | cons M Ms ih =>
    intro Es
    cases Es with
    | nil => rfl
    | cons E Es =>
      simp only [keplerDeltas, keplerUpdate, List.zipWith_cons_cons] at ih ⊢
      rw [ih]

theorem keplerLoopV_iterate (e tol : ℝ) (Ms : List ℝ) :
    ∀ (fuel : ℕ) (Es : List ℝ), ∃ k ≤ fuel,
      keplerLoopV e tol Ms fuel Es = (fun l => keplerUpdate e Ms l)^[k] Es := by
  intro fuel
  induction fuel with
  | zero => intro Es; exact ⟨0, le_refl 0, rfl⟩
  | succ n ih =>
    intro Es
    show (∃ k ≤ n + 1, (if ∀ d ∈ keplerDeltas e Ms Es, |d| < tol then
        List.zipWith (fun E dE => E + dE) Es (keplerDeltas e Ms Es)
      else keplerLoopV e tol Ms n
        (List.zipWith (fun E dE => E + dE) Es (keplerDeltas e Ms Es))) = _)
    rw [zipWith_add_deltas]
    by_cases hc : ∀ d ∈ keplerDeltas e Ms Es, |d| < tol
    · rw [if_pos hc]
      exact ⟨1, by omega, rfl⟩
    · rw [if_neg hc]
      obtain ⟨k, hk, heq⟩ := ih (keplerUpdate e Ms Es)
      refine ⟨k + 1, by omega, ?_⟩
      rw [heq, Function.iterate_succ_apply]

/-- C7: for every batch of mean anomalies and every eccentricity (including all
`0 ≤ e < 1`), `kepler_E` always returns a value that is exactly `k ≤ maxiter`
whole-array Newton updates applied to the initial guess; non-convergence
raises nothing — the best available estimate at the iteration cap is returned
silently (the function is total and has no error channel). -/
theorem kepler_solver_silently_bounded (Ms : List ℝ) (e tol : ℝ) (maxiter : ℕ) :
    ∃ k ≤ maxiter, kepler_E Ms e tol maxiter
      = (fun l => keplerUpdate e (Ms.map normAngle) l)^[k]
          (if |e| > 0.8 then (Ms.map normAngle).map (fun _ => π)
            else Ms.map normAngle) := by
  show ∃ k ≤ maxiter, keplerLoopV e tol (List.map normAngle Ms) maxiter
      (if |e| > 0.8 then (List.map normAngle Ms).map (fun _ => π)
        else List.map normAngle Ms) = _
  by_cases h : |e| > 0.8
  · rw [if_pos h]
    exact keplerLoopV_iterate e tol (List.map normAngle Ms) maxiter _
  · rw [if_neg h]
    exact keplerLoopV_iterate e tol (List.map normAngle Ms) maxiter _

/-! ## Claim C2: there is no ValidationError -/

/-- C2 counterexample: the element set `a=7000, e=2` violates the invariant
`e ∈ [0,1)`, yet it is constructed and propagated without any rejection:
`propagate_orbit` has no error channel at all and returns one position sample
for it.  No `ValidationError` exists anywhere in the code. -/
theorem no_validation_counterexample :
    ¬ validElementSet ⟨7000, 2, 0, 0, 0, 0⟩ ∧
      (propagate_orbit ⟨7000, 2, 0, 0, 0, 0⟩ [0] 0).length = 1 := by
  constructor
  · rintro ⟨-, -, h⟩
    norm_num at h
  · rw [propagate_orbit_length]
    rfl

/-- C2 amended: element-set construction and propagation perform no range
validation: there is no ValidationError, and `propagate_orbit` accepts every
element set — with `a_km ≤ 0` or `e ∉ [0,1)` as readily as valid ones —
returning exactly one position sample per requested time offset. -/
theorem propagation_accepts_all_element_sets (es : ElementSet) (ts : List ℝ)
    (m0t : ℝ) : (propagate_orbit es ts m0t).length = ts.length :=
  propagate_orbit_length es ts m0t

/-! ## Claim C1: the Ephemeris Cache never returns a stored entry -/

/-- C1 counterexample: starting from a fresh `OrbitPlot` state and issuing the
same propagation request twice (identical element set, sample count and time
span), the second request still invokes `propagate_orbit`: the propagation
counter reaches 2, not 1, so the stored samples are never returned in place of
recomputation. -/
theorem cache_never_hit_counterexample :
    ((prepare_propagation
        (prepare_propagation
          ⟨⟨7000, 0, 45, 30, 60, 120⟩, 0, none, none, none, 0⟩
          ⟨true, some 2⟩).1
        ⟨true, some 2⟩).1).propagateCalls = 2 := rfl

/-- C1 amended: `_prepare_propagation` is write-only caching: every call
recomputes the samples via `propagate_orbit`/`eci_to_ecef` on a freshly built
time array and overwrites the three `_cached_*` fields, regardless of whether
the request key matches the previous one; the returned result never depends
on the previously stored entry. -/
theorem prepare_propagation_always_recomputes (st : OrbitPlotState)
    (req : PrepRequest) :
    (prepare_propagation st req).1.cachedTimes
        = some (prepTimes st.elems.a req) ∧
    (prepare_propagation st req).1.cachedREci
        = some (propagate_orbit st.elems (prepTimes st.elems.a req) 0) ∧
    (prepare_propagation st req).1.cachedREcef
        = some (eci_to_ecef
            (propagate_orbit st.elems (prepTimes st.elems.a req) 0)
            (prepTimes st.elems.a req) 0) ∧
    (prepare_propagation st req).1.propagateCalls = st.propagateCalls + 1 ∧
    (∀ c1 c2 c3 c1' c2' c3' k k',
      (prepare_propagation ⟨st.elems, st.epoch, c1, c2, c3, k⟩ req).2
        = (prepare_propagation ⟨st.elems, st.epoch, c1', c2', c3', k'⟩ req).2) :=
  ⟨rfl, rfl, rfl, rfl, fun _ _ _ _ _ _ _ _ => rfl⟩

end

/-! ## Claim C5: propagation at t = 0 reproduces oe_to_rv at M0 -/

noncomputable section

open Real

/-- C5: for every element set, propagating with the single time offset `t = 0`
(and `M0_epoch_time = 0`, its value at every call site) yields exactly the
position `oe_to_rv` returns at the element set's own `M0_deg` with the same
`a, e, i_deg, raan_deg, argp_deg`.  Both paths normalise the mean anomaly the
same way (`kepler_E` re-normalises internally, and normalisation is
idempotent), so the results agree exactly. -/
theorem propagate_zero_eq_oe_to_rv (es : ElementSet) :
    propagate_orbit es [0] 0
      = [(oe_to_rv es.a es.e es.i_deg es.raan_deg es.argp_deg es.M0_deg).1] := by
  have h1 : List.map
      (fun t => deg2rad es.M0_deg + Real.sqrt (MU_EARTH / es.a ^ 3) * (t - 0)) [0]
      = [deg2rad es.M0_deg] := by
    simp
  show List.map _ (kepler_E (List.map normAngle (List.map
      (fun t => deg2rad es.M0_deg + Real.sqrt (MU_EARTH / es.a ^ 3) * (t - 0)) [0]))
      es.e 1e-10 100) = _
  rw [h1]
  have h2 : List.map normAngle [deg2rad es.M0_deg]
      = [normAngle (deg2rad es.M0_deg)] := rfl
  rw [h2, kepler_E_singleton, kepler_E_scalar_normAngle]
  rfl

/-! ## Claim C8: circular orbits have constant radius -/

theorem vnorm_circle (a f : ℝ) (ha : 0 ≤ a) :
    Real.sqrt (vnormSq (a * Real.cos f, a * Real.sin f, 0)) = a := by
  have h : vnormSq (a * Real.cos f, a * Real.sin f, 0) = a ^ 2 := by
    show (a * Real.cos f) ^ 2 + (a * Real.sin f) ^ 2 + (0 : ℝ) ^ 2 = a ^ 2
    linear_combination a ^ 2 * sin_sq_add_cos_sq f
  rw [h, Real.sqrt_sq ha]

/-- C8: for every element set with `e = 0` (and nonnegative `a`) and every
sequence of time offsets, every position returned by `propagate_orbit` has
Euclidean norm exactly `a` — in the real-number idealisation the radius is
exactly constant, which is the claim's "within floating-point tolerance". -/
theorem circular_orbit_constant_radius (es : ElementSet) (ts : List ℝ)
    (m0t : ℝ) (he : es.e = 0) (ha : 0 ≤ es.a) :
    ∀ p ∈ propagate_orbit es ts m0t, vnorm p = es.a := by
  intro p hp
  simp only [propagate_orbit, List.mem_map] at hp
  obtain ⟨E, hE, hpe⟩ := hp
  subst hpe
  rw [vnorm, vnormSq_matVec_Q, he]
  simp only [zero_mul, sub_zero, mul_one]
  exact vnorm_circle es.a _ ha

theorem getD_mem_of_lt (l : List Vec3) (i : ℕ) (d : Vec3) (h : i < l.length) :
    l.getD i d ∈ l := by
  rw [List.getD_eq_getElem?_getD, List.getElem?_eq_getElem h]
  exact List.getElem_mem h

/-- Witness for C8 at the concrete circular LEO element set
`a=7000, e=0, i=45°, Ω=30°, ω=60°, M0=120°` sampled at `t ∈ {0, 600}`. -/
theorem circular_orbit_constant_radius_witness :
    ((⟨7000, 0, 45, 30, 60, 120⟩ : ElementSet).e = 0 ∧
      (0 : ℝ) ≤ (⟨7000, 0, 45, 30, 60, 120⟩ : ElementSet).a) ∧
    vnorm ((propagate_orbit ⟨7000, 0, 45, 30, 60, 120⟩ [0, 600] 0).getD 0 default)
      = (⟨7000, 0, 45, 30, 60, 120⟩ : ElementSet).a := by
  refine ⟨⟨rfl, by norm_num⟩, ?_⟩
  exact circular_orbit_constant_radius ⟨7000, 0, 45, 30, 60, 120⟩ [0, 600] 0 rfl
    (by norm_num) _
    (getD_mem_of_lt _ _ _ (by rw [propagate_orbit_length]; norm_num))

/-! ## Claim C10: the Earth-fixed rotation preserves radius and altitude -/

theorem vnorm_rotEcef (t : ℝ) (v : Vec3) : vnorm (rotEcef t v) = vnorm v := by
  rw [vnorm, vnorm, vnormSq_rotEcef]

theorem eci_to_ecef_getElem (rs : List Vec3) (ts : List ℝ) (gst0 : ℝ) (i : ℕ)
    (hlen : ts.length = rs.length) (hi : i < rs.length) :
    ∃ θ, (eci_to_ecef rs ts gst0)[i]? = some (rotEcef θ (rs.getD i default)) := by
  have hrs : rs[i]? = some (rs.getD i default) := by
    rw [List.getD_eq_getElem?_getD, List.getElem?_eq_getElem hi]
    rfl
  rcases ts with _ | ⟨t0, ts'⟩
  · simp at hlen; omega
  · rcases ts' with _ | ⟨t1, ts''⟩
    · refine ⟨gst0 + OMEGA_EARTH * t0, ?_⟩
      show (List.zipWith (fun v t => rotEcef t v) rs
        (List.replicate rs.length (gst0 + OMEGA_EARTH * t0)))[i]? = _
      rw [List.getElem?_zipWith]
      rw [hrs, List.getElem?_replicate_of_lt hi]
    · have hits : i < (t0 :: t1 :: ts'').length := by
        rw [hlen]; exact hi
      refine ⟨gst0 + OMEGA_EARTH * ((t0 :: t1 :: ts'').get ⟨i, hits⟩), ?_⟩
      show (List.zipWith (fun v t => rotEcef t v) rs
        (List.map (fun t => gst0 + OMEGA_EARTH * t) (t0 :: t1 :: ts'')))[i]? = _
      rw [List.getElem?_zipWith]
      rw [hrs, List.getElem?_map]
      rw [List.getElem?_eq_getElem hits]
      rfl

/-- C10: for every batch of inertial positions, every matching time-offset
array and every reference angle, the `i`-th Earth-fixed position returned by
`eci_to_ecef` has the same Euclidean norm as the `i`-th inertial input, and
the altitude `earth_fixed_to_geodetic` computes for it is exactly
`‖r_inertial‖ - 6371.0` km — unchanged by the frame rotation. -/
theorem earth_fixed_rotation_preserves_radius (rs : List Vec3) (ts : List ℝ)
    (gst0 : ℝ) (i : ℕ) (hlen : ts.length = rs.length) (hi : i < rs.length) :
    vnorm ((eci_to_ecef rs ts gst0).getD i default)
        = vnorm (rs.getD i default) ∧
    ((ecef_to_latlon (eci_to_ecef rs ts gst0)).getD i
        ((0 : ℝ), (0 : ℝ), (0 : ℝ))).2.2
      = vnorm (rs.getD i default) - 6371.0 := by
  obtain ⟨θ, hθ⟩ := eci_to_ecef_getElem rs ts gst0 i hlen hi
  have h1 : (eci_to_ecef rs ts gst0).getD i default
      = rotEcef θ (rs.getD i default) := by
    rw [List.getD_eq_getElem?_getD, hθ]
    rfl
  constructor
  · rw [h1, vnorm_rotEcef]
  · have h2 : (ecef_to_latlon (eci_to_ecef rs ts gst0))[i]?
        = some ((ecef_to_latlon [rotEcef θ (rs.getD i default)]).getD 0
            ((0 : ℝ), (0 : ℝ), (0 : ℝ))) := by
      show (List.map _ (eci_to_ecef rs ts gst0))[i]? = _
      rw [List.getElem?_map, hθ]
      rfl
    rw [List.getD_eq_getElem?_getD, h2]
    show ((ecef_to_latlon [rotEcef θ (rs.getD i default)]).getD 0 _).2.2 = _
    show vnorm (rotEcef θ (rs.getD i default)) - 6371.0 = _
    rw [vnorm_rotEcef]

/-- Witness for C10 at the single inertial position `(7000, 0, 0)` km with
`t = 0` and reference angle `1` rad. -/
theorem earth_fixed_rotation_preserves_radius_witness :
    (([(0 : ℝ)] : List ℝ).length
        = ([((7000 : ℝ), (0 : ℝ), (0 : ℝ))] : List Vec3).length ∧
      0 < ([((7000 : ℝ), (0 : ℝ), (0 : ℝ))] : List Vec3).length) ∧
    (vnorm ((eci_to_ecef [((7000 : ℝ), (0 : ℝ), (0 : ℝ))] [(0 : ℝ)] 1).getD 0 default)
        = vnorm (([((7000 : ℝ), (0 : ℝ), (0 : ℝ))] : List Vec3).getD 0 default) ∧
    ((ecef_to_latlon (eci_to_ecef [((7000 : ℝ), (0 : ℝ), (0 : ℝ))] [(0 : ℝ)] 1)).getD 0
        ((0 : ℝ), (0 : ℝ), (0 : ℝ))).2.2
      = vnorm (([((7000 : ℝ), (0 : ℝ), (0 : ℝ))] : List Vec3).getD 0 default) - 6371.0) :=
  ⟨⟨rfl, by norm_num⟩,
    earth_fixed_rotation_preserves_radius
      [((7000 : ℝ), (0 : ℝ), (0 : ℝ))] [(0 : ℝ)] 1 0 rfl (by norm_num)⟩

end

/-! ## Claim C4: when parse_tle fails -/

/-- C4 counterexample: both lines are strictly shorter than the fixed-width
layout the fields are cut from (line 1 needs columns up to 32, line 2 up to
63), yet parsing *succeeds* — Python slicing truncates silently, and every
truncated field text is still numeric.  So "shorter than the required
fixed-width field layout" does not imply a ParseError. -/
theorem tle_short_lines_still_parse :
    ("1 25544U 98067A   25229.18".length < 32 ∧
      "2 25544  51.6356   4.7550 0003499 229.5075 130.5609 15.49975".length < 63) ∧
    tle_fields "1 25544U 98067A   25229.18"
        "2 25544  51.6356   4.7550 0003499 229.5075 130.5609 15.49975"
      = Except.ok ⟨25, 229.18, 51.6356, 4.7550, 0.0003499, 229.5075, 130.5609,
          15.49975⟩ ∧
    tle_to_kepler6 "1 25544U 98067A   25229.18"
        "2 25544  51.6356   4.7550 0003499 229.5075 130.5609 15.49975"
      ≠ Except.error () := by
  have hf : tle_fields "1 25544U 98067A   25229.18"
      "2 25544  51.6356   4.7550 0003499 229.5075 130.5609 15.49975"
    = Except.ok ⟨25, mkRat 22918 100, mkRat 516356 10000, mkRat 47550 10000,
        mkRat 3499 10000000, mkRat 2295075 10000, mkRat 1305609 10000,
        mkRat 1549975 100000⟩ := rfl
  have hvals : (⟨25, mkRat 22918 100, mkRat 516356 10000, mkRat 47550 10000,
        mkRat 3499 10000000, mkRat 2295075 10000, mkRat 1305609 10000,
        mkRat 1549975 100000⟩ : TleFields)
      = ⟨25, 229.18, 51.6356, 4.7550, 0.0003499, 229.5075, 130.5609,
          15.49975⟩ := by
    simp only [TleFields.mk.injEq, Rat.mkRat_eq_div]
    norm_num
  refine ⟨⟨by decide, by decide⟩, by rw [hf, hvals], ?_⟩
  intro h
  unfold tle_to_kepler6 at h
  rw [hf] at h
  simp [Except.map] at h

/-- C4 amended: `tle_to_kepler6` fails with a ParseError exactly when one of
its eight sliced numeric fields does not parse; a line shorter than the
fixed-width layout does not fail by itself — Python slicing truncates
silently, and parsing succeeds whenever the truncated field texts are still
numeric. -/
theorem tle_parse_error_iff_field_unparsable (line1 line2 : String) :
    tle_to_kepler6 line1 line2 = Except.error () ↔
      (tleYY line1 = none ∨ tleDay line1 = none ∨ tleInc line2 = none ∨
       tleRaan line2 = none ∨ tleEcc line2 = none ∨ tleArgp line2 = none ∨
       tleM0 line2 = none ∨ tleMeanMotion line2 = none) := by
  unfold tle_to_kepler6 tle_fields
  cases tleYY line1 <;> cases tleDay line1 <;> cases tleInc line2 <;>
    cases tleRaan line2 <;> cases tleEcc line2 <;> cases tleArgp line2 <;>
    cases tleM0 line2 <;> cases tleMeanMotion line2 <;>
    simp [Except.map]

/-! ## Claim C3: velocities and the propagate operation -/

noncomputable section

open Real

theorem normAngle_zero : normAngle 0 = 0 := by
  unfold normAngle pythonMod
  have hπ : (0 : ℝ) + π = π := by ring
  rw [hπ]
  have h2 : π / (2 * π) = 1 / 2 := by
    rw [div_eq_iff (by positivity)]
    ring
  rw [h2]
  norm_num

theorem keplerDelta_zero : keplerDelta 0 0 0 = 0 := by
  unfold keplerDelta
  simp

theorem kepler_scalar_zero : kepler_E_scalar 0 0 1e-10 100 = 0 := by
  unfold kepler_E_scalar
  rw [normAngle_zero]
  show keplerLoopS 0 1e-10 0 100 (if |(0 : ℝ)| > 0.8 then π else 0) = 0
  rw [if_neg (by norm_num)]
  show (if |keplerDelta 0 0 0| < 1e-10 then (0 : ℝ) + keplerDelta 0 0 0
    else keplerLoopS 0 1e-10 0 99 (0 + keplerDelta 0 0 0)) = 0
  rw [keplerDelta_zero, if_pos (by norm_num)]
  norm_num

theorem atan2_zero_one : atan2 0 1 = 0 := by
  unfold atan2
  rw [if_pos one_pos]
  simp

/-- C3 counterexample: the propagate operation has no velocity flag and
returns no velocities: its entire output for the element set
`a=7000, e=0, i=Ω=ω=M0=0` at the single offset `t=0` is the one bare position
3-vector `(7000, 0, 0)` — one `Position3` per time offset and nothing else.
(The only velocity in the code base is `oe_to_rv`'s, which takes a single mean
anomaly, not a time-offset sequence, and has no flag either.) -/
theorem propagate_has_no_velocity_output :
    propagate_orbit ⟨7000, 0, 0, 0, 0, 0⟩ [0] 0 = [((7000 : ℝ), 0, 0)] := by
  have hM : deg2rad (0 : ℝ) = 0 := by unfold deg2rad; ring
  show List.map _ (kepler_E (List.map normAngle (List.map
      (fun t => deg2rad 0 + Real.sqrt (MU_EARTH / 7000 ^ 3) * (t - 0)) [0]))
      0 1e-10 100) = _
  have h1 : List.map
      (fun t => deg2rad 0 + Real.sqrt (MU_EARTH / 7000 ^ 3) * (t - 0)) [(0 : ℝ)]
      = [(0 : ℝ)] := by
    simp [hM]
  rw [h1]
  have h2 : List.map normAngle [(0 : ℝ)] = [normAngle 0] := rfl
  rw [h2, normAngle_zero, kepler_E_singleton, kepler_scalar_zero]
  show [(fun E => _) (0 : ℝ)] = _
  simp only [List.map_cons, List.map_nil]
  congr 1
  rw [hM]
  norm_num [atan2_zero_one, Rz, Rx, matMul, matVec, dot3]

/-- C3 amended: `propagate_orbit` returns positions only — one 3-vector per
time offset, with no velocity option; a velocity vector is produced only by
`oe_to_rv`, which always (not optionally) returns, alongside the position, the
perifocal velocity built from the specific angular momentum
`h = sqrt(μ·a·(1-e²))` rotated into the inertial frame. -/
theorem oe_to_rv_always_returns_velocity (a e i_deg raan_deg argp_deg M_deg : ℝ) :
    (oe_to_rv a e i_deg raan_deg argp_deg M_deg).2
      = (let E := kepler_E_scalar (deg2rad M_deg) e 1e-10 100
         let cosf := (Real.cos E - e) / (1 - e * Real.cos E)
         let sinf := (Real.sqrt (1 - e ^ 2) * Real.sin E) / (1 - e * Real.cos E)
         let f := atan2 sinf cosf
         let h := Real.sqrt (MU_EARTH * a * (1 - e ^ 2))
         matVec (matMul (matMul (Rz (deg2rad raan_deg)) (Rx (deg2rad i_deg)))
             (Rz (deg2rad argp_deg)))
           (-MU_EARTH / h * Real.sin f, MU_EARTH / h * (e + Real.cos f), 0)) := rfl

end

/-! ## Calendar correctness: the Meeus formula inverts the civil calendar -/

noncomputable section

open Real

theorem fdiv_char (x k : Int) (hk : 0 < k) :
    x = k * Int.fdiv x k + Int.fmod x k ∧ 0 ≤ Int.fmod x k ∧ Int.fmod x k < k :=
  ⟨(Int.fdiv_add_fmod x k).symm, Int.fmod_nonneg' x hk, Int.fmod_lt_of_pos x hk⟩

/-- The month-table step: for mp ∈ [0,11], ⌊30.6001·(mp+4)⌋ = ⌊(153·mp+2)/5⌋ + 122. -/
theorem month_table (mp : Int) (h0 : 0 ≤ mp) (h1 : mp ≤ 11) :
    Int.fdiv (306001 * (mp + 3 + 1)) 10000 = Int.fdiv (153 * mp + 2) 5 + 122 := by
  interval_cases mp <;> decide

theorem jdShiftedZ_civilFromDays (d : Int) :
    jdShiftedZ (civilFromDays d).1 (civilFromDays d).2.1 (civilFromDays d).2.2
      = d + 2442112 := by
  obtain ⟨h1, h2, h3⟩ := fdiv_char (d + 719468) 146097 (by norm_num)
  set era := Int.fdiv (d + 719468) 146097 with hera
  set doe := d + 719468 - era * 146097 with hdoe
  have hdoe1 : 0 ≤ doe := by omega
  have hdoe2 : doe < 146097 := by omega
  obtain ⟨c1, c2, c3⟩ := fdiv_char (4 * doe + 3) 146097 (by norm_num)
  set cc := Int.fdiv (4 * doe + 3) 146097 with hcc
  obtain ⟨c4, c5, c6⟩ := fdiv_char (146097 * cc) 4 (by norm_num)
  set doc := doe - Int.fdiv (146097 * cc) 4 with hdoc
  obtain ⟨y1, y2, y3⟩ := fdiv_char (4 * doc + 3) 1461 (by norm_num)
  set yocc := Int.fdiv (4 * doc + 3) 1461 with hyocc
  obtain ⟨y4, y5, y6⟩ := fdiv_char (1461 * yocc) 4 (by norm_num)
  set doy := doc - Int.fdiv (1461 * yocc) 4 with hdoy
  obtain ⟨m1, m2, m3⟩ := fdiv_char (5 * doy + 2) 153 (by norm_num)
  set mp := Int.fdiv (5 * doy + 2) 153 with hmp
  obtain ⟨m4, m5, m6⟩ := fdiv_char (153 * mp + 2) 5 (by norm_num)
  -- ranges
  have hcc2 : cc ≤ 3 := by omega
  have hyocc2 : yocc ≤ 99 := by omega
  have hdoy1 : 0 ≤ doy := by omega
  have hdoy2 : doy ≤ 365 := by omega
  have hmp1 : 0 ≤ mp := by omega
  have hmp2 : mp ≤ 11 := by omega
  -- the computed date
  have hciv : civilFromDays d =
      (era * 400 + cc * 100 + yocc +
         (if mp + (if mp < 10 then 3 else -9) ≤ 2 then 1 else 0),
       mp + (if mp < 10 then 3 else -9),
       doy - Int.fdiv (153 * mp + 2) 5 + 1) := by
    rfl
  rw [hciv]
  unfold jdShiftedZ
  by_cases hsplit : mp < 10
  · -- month ≥ 3, no year adjustment
    simp only [if_pos hsplit]
    simp only [if_neg (show ¬ (mp + (3:Int) ≤ 2) by omega), add_zero]
    obtain ⟨p1, p2, p3⟩ := fdiv_char yocc 4 (by norm_num)
    obtain ⟨a1, a2, a3⟩ := fdiv_char (era * 400 + cc * 100 + yocc) 100 (by norm_num)
    have hA : Int.fdiv (era * 400 + cc * 100 + yocc) 100 = 4 * era + cc := by omega
    rw [hA]
    obtain ⟨b1, b2, b3⟩ := fdiv_char (4 * era + cc) 4 (by norm_num)
    have hB : Int.fdiv (4 * era + cc) 4 = era := by omega
    rw [hB]
    obtain ⟨q1, q2, q3⟩ := fdiv_char (1461 * (era * 400 + cc * 100 + yocc + 4716)) 4 (by norm_num)
    have hC : Int.fdiv (1461 * (era * 400 + cc * 100 + yocc + 4716)) 4
        = 146100 * era + 36525 * cc + 365 * yocc + Int.fdiv yocc 4 + 1722519 := by omega
    rw [hC]
    have hE : Int.fdiv (146097 * cc) 4 = 36524 * cc := by omega
    have hF : Int.fdiv (1461 * yocc) 4 = 365 * yocc + Int.fdiv yocc 4 := by omega
    rw [month_table mp hmp1 hmp2]
    omega
  · -- mp ∈ {10, 11}: month ∈ {1,2}, year adjustment
    simp only [if_neg hsplit]
    simp only [if_pos (show mp + (-9:Int) ≤ 2 by omega), add_sub_cancel_right]
    rw [show mp + -9 + 12 = mp + 3 by ring]
    obtain ⟨p1, p2, p3⟩ := fdiv_char yocc 4 (by norm_num)
    obtain ⟨a1, a2, a3⟩ := fdiv_char (era * 400 + cc * 100 + yocc) 100 (by norm_num)
    have hA : Int.fdiv (era * 400 + cc * 100 + yocc) 100 = 4 * era + cc := by omega
    rw [hA]
    obtain ⟨b1, b2, b3⟩ := fdiv_char (4 * era + cc) 4 (by norm_num)
    have hB : Int.fdiv (4 * era + cc) 4 = era := by omega
    rw [hB]
    obtain ⟨q1, q2, q3⟩ := fdiv_char (1461 * (era * 400 + cc * 100 + yocc + 4716)) 4 (by norm_num)
    have hC : Int.fdiv (1461 * (era * 400 + cc * 100 + yocc + 4716)) 4
        = 146100 * era + 36525 * cc + 365 * yocc + Int.fdiv yocc 4 + 1722519 := by omega
    rw [hC]
    have hE : Int.fdiv (146097 * cc) 4 = 36524 * cc := by omega
    have hF : Int.fdiv (1461 * yocc) 4 = 365 * yocc + Int.fdiv yocc 4 := by omega
    rw [month_table mp hmp1 hmp2]
    omega

theorem floor_intCast_div (p q : ℤ) (hq : 0 < q) :
    ⌊(p : ℝ) / (q : ℝ)⌋ = Int.fdiv p q := by
  obtain ⟨h1, h2, h3⟩ := fdiv_char p q hq
  have hq' : (0 : ℝ) < (q : ℝ) := by exact_mod_cast hq
  have h1' : (p : ℝ) = (q : ℝ) * (Int.fdiv p q : ℝ) + (Int.fmod p q : ℝ) := by
    exact_mod_cast congrArg (fun z : ℤ => (z : ℝ)) h1
  have h2' : (0 : ℝ) ≤ (Int.fmod p q : ℝ) := by exact_mod_cast h2
  have h3' : (Int.fmod p q : ℝ) < (q : ℝ) := by exact_mod_cast h3
  rw [Int.floor_eq_iff]
  constructor
  · rw [le_div_iff₀ hq']
    nlinarith
  · rw [div_lt_iff₀ hq']
    nlinarith

theorem floor_36525_mul (Y : ℤ) :
    ⌊(365.25 : ℝ) * ((Y : ℝ) + 4716)⌋ = Int.fdiv (1461 * (Y + 4716)) 4 := by
  have h : (365.25 : ℝ) * ((Y : ℝ) + 4716)
      = ((1461 * (Y + 4716) : ℤ) : ℝ) / ((4 : ℤ) : ℝ) := by
    rw [eq_div_iff (by norm_num)]
    push_cast
    ring
  rw [h, floor_intCast_div _ _ (by norm_num)]

theorem floor_306001_mul (M : ℤ) :
    ⌊(30.6001 : ℝ) * ((M : ℝ) + 1)⌋ = Int.fdiv (306001 * (M + 1)) 10000 := by
  have h : (30.6001 : ℝ) * ((M : ℝ) + 1)
      = ((306001 * (M + 1) : ℤ) : ℝ) / ((10000 : ℤ) : ℝ) := by
    rw [eq_div_iff (by norm_num)]
    push_cast
    ring
  rw [h, floor_intCast_div _ _ (by norm_num)]

theorem floor_div100 (Y : ℤ) : ⌊(Y : ℝ) / 100⌋ = Int.fdiv Y 100 := by
  have := floor_intCast_div Y 100 (by norm_num)
  simpa using this

theorem floor_div4 (A : ℤ) : ⌊(A : ℝ) / 4⌋ = Int.fdiv A 4 := by
  have := floor_intCast_div A 4 (by norm_num)
  simpa using this

theorem jdOfTimestamp_eq (t : ℝ) : jdOfTimestamp t = t / 86400 + 2440587.5 := by
  have hjd := jdShiftedZ_civilFromDays (utcDays t)
  rcases hc : civilFromDays (utcDays t) with ⟨cy, cm, cd⟩
  rw [hc] at hjd
  unfold jdOfTimestamp
  rw [hc]
  dsimp only
  rw [floor_36525_mul, floor_306001_mul, floor_div100, floor_div4]
  unfold jdShiftedZ at hjd
  dsimp only at hjd
  have hfrac : ((utcHH t : ℝ) + ((utcMM t : ℝ) + utcSS t / 60) / 60) / 24
      = utcSod t / 86400 := by
    unfold utcSS
    field_simp
    ring
  rw [hfrac]
  have hsod : utcSod t = t - 86400 * (utcDays t : ℝ) := rfl
  have hdiv : (t - 86400 * (utcDays t : ℝ)) / 86400
      = t / 86400 - (utcDays t : ℝ) := by ring
  rw [hsod, hdiv]
  have hjdR : ((Int.fdiv (1461 * ((if cm ≤ 2 then cy - 1 else cy) + 4716)) 4 : ℤ) : ℝ)
      + ((Int.fdiv (306001 * ((if cm ≤ 2 then cm + 12 else cm) + 1)) 10000 : ℤ) : ℝ)
      + (cd : ℝ)
      + ((2 - Int.fdiv (if cm ≤ 2 then cy - 1 else cy) 100
          + Int.fdiv (Int.fdiv (if cm ≤ 2 then cy - 1 else cy) 100) 4 : ℤ) : ℝ)
      = (utcDays t : ℝ) + 2442112 := by
    exact_mod_cast congrArg (fun z : ℤ => (z : ℝ)) hjd
  push_cast at hjdR ⊢
  linarith

theorem gmst_sec_eq (t : ℝ) :
    gmst_sec t = gmstPoly ((t / 86400 + 2440587.5 - 2451545.0) / 36525.0) := by
  unfold gmst_sec
  rw [jdOfTimestamp_eq]

theorem gmstPoly_mono (T1 T2 : ℝ) (h1 : -21 ≤ T1) (h12 : T1 ≤ T2) (h2 : T2 ≤ 81) :
    gmstPoly T1 ≤ gmstPoly T2 := by
  have key : gmstPoly T2 - gmstPoly T1
      = (T2 - T1) * ((876600.0 * 3600 + 8640184.812866)
          + 0.093104 * (T1 + T2) - 6.2e-6 * (T1 ^ 2 + T1 * T2 + T2 ^ 2)) := by
    unfold gmstPoly
    ring
  have hB1 : T1 ^ 2 ≤ 6561 := by nlinarith
  have hB2 : T2 ^ 2 ≤ 6561 := by nlinarith
  have hB3 : -6561 ≤ T1 * T2 := by nlinarith [sq_nonneg (T1 + T2)]
  have hbr : 0 ≤ (876600.0 * 3600 + 8640184.812866)
      + 0.093104 * (T1 + T2) - 6.2e-6 * (T1 ^ 2 + T1 * T2 + T2 ^ 2) := by
    nlinarith
  have hprod : 0 ≤ (T2 - T1) * ((876600.0 * 3600 + 8640184.812866)
      + 0.093104 * (T1 + T2) - 6.2e-6 * (T1 ^ 2 + T1 * T2 + T2 ^ 2)) :=
    mul_nonneg (by linarith) hbr
  linarith

/-- C9: over the timestamp range Python's `datetime` accepts (years 1-9999),
the pre-wrap GMST degree value `gmst_sec/240` is monotonically non-decreasing
in `unix_time_s`; the returned angle is exactly its wrap
`((gmst_sec/240) % 360)·π/180`, and always lies in `[0, 2π)` — so the angle
increases with time and wraps from `2π` back to `0` at each full turn. -/
theorem gmst_monotone_and_wrapped (t1 t2 : ℝ) (h1 : -62135596800 ≤ t1)
    (h12 : t1 ≤ t2) (h2 : t2 ≤ 253402300800) :
    gmst_sec t1 / 240 ≤ gmst_sec t2 / 240 ∧
    0 ≤ gmst_rad t1 ∧ gmst_rad t1 < 2 * π ∧
    gmst_rad t1 = pythonMod (gmst_sec t1 / 240) 360 * (π / 180) := by
  refine ⟨?_, ?_, ?_, rfl⟩
  · rw [gmst_sec_eq, gmst_sec_eq]
    have hmono := gmstPoly_mono ((t1 / 86400 + 2440587.5 - 2451545.0) / 36525.0)
      ((t2 / 86400 + 2440587.5 - 2451545.0) / 36525.0)
      (by linarith) (by linarith) (by linarith)
    linarith
  · have hppos : (0 : ℝ) < π / 180 := by
      have := Real.pi_pos
      linarith
    exact mul_nonneg (pythonMod_nonneg _ _ (by norm_num)) (le_of_lt hppos)
  · have hlt := pythonMod_lt (gmst_sec t1 / 240) 360 (by norm_num)
    have hppos : (0 : ℝ) < π / 180 := by
      have := Real.pi_pos
      linarith
    have := mul_lt_mul_of_pos_right hlt hppos
    calc gmst_rad t1 = pythonMod (gmst_sec t1 / 240) 360 * (π / 180) := rfl
      _ < 360 * (π / 180) := this
      _ = 2 * π := by ring

/-- Witness for C9 at `t1 = 0`, `t2 = 86400` (one day later). -/
theorem gmst_monotone_and_wrapped_witness :
    ((-62135596800 : ℝ) ≤ 0 ∧ (0 : ℝ) ≤ 86400 ∧ (86400 : ℝ) ≤ 253402300800) ∧
    (gmst_sec 0 / 240 ≤ gmst_sec 86400 / 240 ∧
     0 ≤ gmst_rad 0 ∧ gmst_rad 0 < 2 * π ∧
     gmst_rad 0 = pythonMod (gmst_sec 0 / 240) 360 * (π / 180)) :=
  ⟨⟨by norm_num, by norm_num, by norm_num⟩,
    gmst_monotone_and_wrapped 0 86400 (by norm_num) (by norm_num) (by norm_num)⟩

end
